import Mathlib

/- Verification development for the fake-cdn synthetic traffic engine
   (src/fake_cdn/core/generator.py and src/fake_cdn/core/validator.py).

   Embedding conventions:
   * Python floats are modelled as exact rationals (ℚ).
   * Python `int(x)` (truncation toward zero) is modelled by `pyInt`.
   * `random.uniform(a, b)` / `random.random()` draws are modelled as oracle
     inputs, one field per call site; theorems hypothesise exactly the ranges
     the Python random library guarantees for those calls.
   * `math.sin((hour_of_day - 6) * pi / 12)` is modelled by an oracle
     `sinT : ℕ → ℚ` indexed by `hour_of_day`, hypothesised to lie in [-1, 1]
     (every value of the float sine does).
   * Python `sorted` is modelled by `List.insertionSort (· ≤ ·)`: Python's
     sort produces the ascending reordering, and on rationals every ascending
     reordering of a given list is the same list.
   * `int(n * 0.95)` for a list length `n` is modelled as `n * 95 / 100` in ℕ;
     for each length arising here the float product `n * 0.95` rounds to a
     value with the exact truncation, so the two agree.
-/

/-- Python `int(x)`: truncation toward zero. -/
def pyInt (q : ℚ) : ℤ :=
  if q < 0 then -⌊-q⌋ else ⌊q⌋

/-- Python `sorted` on a list of floats (ascending sort). -/
def pySorted (l : List ℚ) : List ℚ :=
  List.insertionSort (· ≤ ·) l

/-- One region entry of `config["dimensions"]["regions"]`. -/
structure RegionCfg where
  country : String
  region : String
  weight : ℚ
deriving Repr

/-- The configuration fields the engine reads (flattened from the nested
`config` dict: `target.bandwidth_gbps`, `time.duration_days`,
`time.interval_seconds`, `realism.burst_probability`,
`realism.anomaly_probability`, `dimensions.tenant_id`, `dimensions.domains`,
`dimensions.regions`). -/
structure Config where
  target_gbps : ℚ
  duration_days : ℕ
  interval_seconds : ℕ
  burst_probability : ℚ
  anomaly_probability : ℚ
  tenant_id : String
  domains : List String
  regions : List RegionCfg

/-- The random draws one loop iteration of `BandwidthCurveGenerator.generate`
can consume: `noise = random.uniform(0.92, 1.08)`, the `random.random()`
burst trial, and `random.uniform(2.0, 3.0)` (read only when the trial
succeeds). -/
structure CurveDraw where
  noise : ℚ
  burstTrial : ℚ
  burstFactor : ℚ

/-- Ranges guaranteed by the `random` calls in `generate`. -/
def CurveDraw.Valid (d : CurveDraw) : Prop :=
  92/100 ≤ d.noise ∧ d.noise ≤ 108/100 ∧
  0 ≤ d.burstTrial ∧ d.burstTrial < 1 ∧
  2 ≤ d.burstFactor ∧ d.burstFactor ≤ 3

/-- Loop body of `BandwidthCurveGenerator.generate` (generator.py lines
34-69) for interval index `i`: time-feature extraction, the four
multiplicative factors, the burst, and the 0.1 Gbps floor clamp. -/
def rawSample (cfg : Config) (sinT : ℕ → ℚ) (d : CurveDraw) (i : ℕ) : ℚ :=
  let minute_of_month := i * (cfg.interval_seconds / 60)
  let hour_of_day := (minute_of_month / 60) % 24
  let day_of_week := (minute_of_month / 1440) % 7
  let day_of_month := minute_of_month / 1440
  let daily_factor := 6/10 + 7/10 * (1/2 + 1/2 * sinT hour_of_day)
  let weekly_factor : ℚ := if day_of_week = 5 ∨ day_of_week = 6 then 85/100 else 1
  let monthly_factor : ℚ :=
    if day_of_month < 3 ∨ cfg.duration_days ≤ day_of_month + 3 then 115/100 else 1
  let noise_factor := d.noise
  let burst_factor : ℚ := if d.burstTrial < cfg.burst_probability then d.burstFactor else 1
  let bw := cfg.target_gbps * daily_factor * weekly_factor * monthly_factor *
      noise_factor * burst_factor
  max (1/10) bw

/-- Point count `duration_days * 24 * 60 // (interval_seconds // 60)`
(generator.py line 28). -/
def totalPoints (duration_days interval_seconds : ℕ) : ℕ :=
  duration_days * 24 * 60 / (interval_seconds / 60)

/-- The curve built by the loop of `generate`, before `_adjust_to_target`. -/
def baseCurve (cfg : Config) (sinT : ℕ → ℚ) (draws : ℕ → CurveDraw) : List ℚ :=
  (List.range (totalPoints cfg.duration_days cfg.interval_seconds)).map
    (fun i => rawSample cfg sinT (draws i) i)

/-- The percentile index of `calc_daily_p95` (generator.py lines 86-90):
`idx = int(n * 0.95) - 1`, clamped into `[0, n-1]`. -/
def calibIdx (n : ℕ) : ℤ :=
  let idx : ℤ := (n * 95 / 100 : ℕ) - 1
  let idx := if idx < 0 then 0 else idx
  if (n : ℤ) ≤ idx then (n : ℤ) - 1 else idx

/-- The helper `calc_daily_p95` inside `_adjust_to_target` (generator.py
lines 82-91): sort one day's samples ascending and pick the clamped
`int(n * 0.95) - 1` element. -/
def calc_daily_p95 (day_curve : List ℚ) : ℚ :=
  let sorted_bw := pySorted day_curve
  let n := day_curve.length
  sorted_bw.getD (calibIdx n).toNat 0

/-- Points per day as `_adjust_to_target` computes it:
`24 * 60 // (interval_seconds // 60)` (generator.py line 80). -/
def pointsPerDay (interval_seconds : ℕ) : ℕ :=
  24 * 60 / (interval_seconds / 60)

/-- The day windows `curve[day_start : day_start + points_per_day]` for
`day_start in range(0, len(curve), points_per_day)` (generator.py lines
95-96).  For `ppd = 0` the Python `range` call would raise; the model
returns no windows there, and every use has `ppd ≥ 1`. -/
def daySlices (ppd : ℕ) (curve : List ℚ) : List (List ℚ) :=
  (List.range ((curve.length + ppd - 1) / ppd)).map
    (fun k => (curve.drop (k * ppd)).take ppd)

/-- The `daily_p95_list` of `_adjust_to_target` (generator.py lines 94-98):
the per-day p95 of every window holding at least half a day of points
(`len(day_curve) >= points_per_day * 0.5`, i.e. `ppd ≤ 2 * len`). -/
def dailyP95List (ppd : ℕ) (curve : List ℚ) : List ℚ :=
  ((daySlices ppd curve).filter (fun day_curve => ppd ≤ 2 * day_curve.length)).map
    calc_daily_p95

/-- Python `max(curve)` for the nonempty lists it is applied to. -/
def pyMax (l : List ℚ) : ℚ :=
  l.foldl max (l.headD 0)

/-- The `avg_daily_p95` of `_adjust_to_target` (generator.py lines 100-103). -/
def avgDailyP95 (ppd : ℕ) (curve : List ℚ) : ℚ :=
  let lst := dailyP95List ppd curve
  if lst = [] then pyMax curve else lst.sum / lst.length

/-- `BandwidthCurveGenerator._adjust_to_target` (generator.py lines 76-115):
if the average per-day p95 deviates from the target by more than 2 %
relative, rescale every sample by `target / avg_daily_p95`. -/
def adjust_to_target (target_gbps : ℚ) (ppd : ℕ) (curve : List ℚ) : List ℚ :=
  let avg_daily_p95 := avgDailyP95 ppd curve
  if 2/100 < |avg_daily_p95 - target_gbps| / target_gbps then
    curve.map (fun bw => bw * (target_gbps / avg_daily_p95))
  else
    curve

/-- `BandwidthCurveGenerator.generate` (generator.py lines 19-74): the raw
curve followed by the calibration pass.  `sinT` is the sine oracle and
`draws` the per-index random draws. -/
def generate (cfg : Config) (sinT : ℕ → ℚ) (draws : ℕ → CurveDraw) : List ℚ :=
  adjust_to_target cfg.target_gbps (pointsPerDay cfg.interval_seconds)
    (baseCurve cfg sinT draws)

/-- The per-interval metric record returned by `MetricsDerivator.derive`
(generator.py lines 180-198).  Every value in the returned dict is a Python
int. -/
structure MetricRecord where
  bw : ℤ
  flux : ℤ
  bs_bw : ℤ
  bs_flux : ℤ
  req_num : ℤ
  hit_num : ℤ
  bs_num : ℤ
  bs_fail_num : ℤ
  hit_flux : ℤ
  http_code_2xx : ℤ
  http_code_3xx : ℤ
  http_code_4xx : ℤ
  http_code_5xx : ℤ
  bs_http_code_2xx : ℤ
  bs_http_code_3xx : ℤ
  bs_http_code_4xx : ℤ
  bs_http_code_5xx : ℤ
deriving Repr, DecidableEq, Inhabited

/-- The uniform draws consumed by one call of `MetricsDerivator.derive`, in
call order (generator.py lines 139-171). -/
structure DeriveDraw where
  cache_hit_rate : ℚ
  avg_obj_size : ℚ
  bs_fail_rate : ℚ
  c2xx : ℚ
  c4xx : ℚ
  c3xx : ℚ
  o2xx : ℚ
  o4xx : ℚ
  o3xx : ℚ

/-- Ranges guaranteed by the `random.uniform` calls in `derive`; the object
size is already converted to bytes (`avg_object_size_kb * 1024`), with the
configured KB range `[kbLo, kbHi]`. -/
def DeriveDraw.Valid (kbLo kbHi : ℚ) (d : DeriveDraw) : Prop :=
  85/100 ≤ d.cache_hit_rate ∧ d.cache_hit_rate ≤ 95/100 ∧
  kbLo * 1024 ≤ d.avg_obj_size ∧ d.avg_obj_size ≤ kbHi * 1024 ∧
  0 ≤ d.bs_fail_rate ∧ d.bs_fail_rate ≤ 1/100 ∧
  75/100 ≤ d.c2xx ∧ d.c2xx ≤ 90/100 ∧
  5/100 ≤ d.c4xx ∧ d.c4xx ≤ 15/100 ∧
  2/100 ≤ d.c3xx ∧ d.c3xx ≤ 8/100 ∧
  85/100 ≤ d.o2xx ∧ d.o2xx ≤ 95/100 ∧
  2/100 ≤ d.o4xx ∧ d.o4xx ≤ 8/100 ∧
  1/100 ≤ d.o3xx ∧ d.o3xx ≤ 5/100

/-- `MetricsDerivator.derive` (generator.py lines 124-198): derive the full
metric record from one bandwidth sample.  The drawn uniform values come in
through `d`. -/
def derive (bandwidth_gbps : ℚ) (interval_seconds : ℕ) (d : DeriveDraw) : MetricRecord :=
  let flux_bytes := pyInt (bandwidth_gbps * 1024 * 1024 * 1024 * interval_seconds / 8)
  let bs_flux_bytes := pyInt ((flux_bytes : ℚ) * (1 - d.cache_hit_rate))
  let hit_flux_bytes := flux_bytes - bs_flux_bytes
  let req_num := max 1 (pyInt ((flux_bytes : ℚ) / d.avg_obj_size))
  let hit_num := pyInt ((req_num : ℚ) * d.cache_hit_rate)
  let bs_num := req_num - hit_num
  let bs_fail_num := max 0 (pyInt ((bs_num : ℚ) * d.bs_fail_rate))
  let http_2xx := pyInt ((req_num : ℚ) * d.c2xx)
  let http_4xx := pyInt ((req_num : ℚ) * d.c4xx)
  let http_3xx := pyInt ((req_num : ℚ) * d.c3xx)
  let http_5xx := max 0 (req_num - http_2xx - http_4xx - http_3xx)
  let bs_http_2xx := if 0 < bs_num then pyInt ((bs_num : ℚ) * d.o2xx) else 0
  let bs_http_4xx := if 0 < bs_num then pyInt ((bs_num : ℚ) * d.o4xx) else 0
  let bs_http_3xx := if 0 < bs_num then pyInt ((bs_num : ℚ) * d.o3xx) else 0
  let bs_http_5xx := if 0 < bs_num then max 0 (bs_num - bs_http_2xx - bs_http_4xx - bs_http_3xx) else 0
  let bw_mbps := pyInt (bandwidth_gbps * 1024)
  let bs_bw_mbps := pyInt ((bs_flux_bytes : ℚ) * 8 / interval_seconds / 1024 / 1024)
  { bw := bw_mbps
    flux := flux_bytes
    bs_bw := bs_bw_mbps
    bs_flux := bs_flux_bytes
    req_num := req_num
    hit_num := hit_num
    bs_num := bs_num
    bs_fail_num := bs_fail_num
    hit_flux := hit_flux_bytes
    http_code_2xx := http_2xx
    http_code_3xx := http_3xx
    http_code_4xx := http_4xx
    http_code_5xx := http_5xx
    bs_http_code_2xx := bs_http_2xx
    bs_http_code_3xx := bs_http_3xx
    bs_http_code_4xx := bs_http_4xx
    bs_http_code_5xx := bs_http_5xx }

/-- The random draws one call of `AnomalyInjector.inject` can consume, in
call order (generator.py lines 224-250): for each of the four perturbations
a `random.random()` trial and the perturbation's uniform magnitude. -/
structure InjectDraw where
  maintTrial : ℚ
  maintPct : ℚ
  outageTrial : ℚ
  outageRate : ℚ
  purgeTrial : ℚ
  purgeRate : ℚ
  ddosTrial : ℚ
  ddosPct : ℚ

/-- Ranges guaranteed by the `random` calls in `inject`. -/
def InjectDraw.Valid (d : InjectDraw) : Prop :=
  0 ≤ d.maintTrial ∧ d.maintTrial < 1 ∧
  5/100 ≤ d.maintPct ∧ d.maintPct ≤ 15/100 ∧
  0 ≤ d.outageTrial ∧ d.outageTrial < 1 ∧
  3/10 ≤ d.outageRate ∧ d.outageRate ≤ 8/10 ∧
  0 ≤ d.purgeTrial ∧ d.purgeTrial < 1 ∧
  5/10 ≤ d.purgeRate ∧ d.purgeRate ≤ 7/10 ∧
  0 ≤ d.ddosTrial ∧ d.ddosTrial < 1 ∧
  2/10 ≤ d.ddosPct ∧ d.ddosPct ≤ 4/10

/-- Perturbation 1 of `AnomalyInjector.inject` (generator.py lines
224-227): maintenance window.  `hour` is
`datetime.fromtimestamp(timestamp_ms / 1000).hour`. -/
def maintenanceStep (hour : ℕ) (d : InjectDraw) (m : MetricRecord) : MetricRecord :=
  if (hour = 2 ∨ hour = 3 ∨ hour = 4) ∧ d.maintTrial < 5/100 then
    let spike_5xx := pyInt ((m.req_num : ℚ) * d.maintPct)
    { m with http_code_5xx := spike_5xx,
             http_code_2xx := max 0 (m.http_code_2xx - spike_5xx) }
  else m

/-- Perturbation 2 of `inject` (generator.py lines 229-234): origin outage. -/
def outageStep (anomaly_probability : ℚ) (d : InjectDraw) (m : MetricRecord) : MetricRecord :=
  if d.outageTrial < anomaly_probability then
    let bs_fail_num := pyInt ((m.bs_num : ℚ) * d.outageRate)
    { m with bs_fail_num := bs_fail_num,
             bs_http_code_5xx := bs_fail_num,
             bs_http_code_2xx := max 0 (m.bs_num - bs_fail_num) }
  else m

/-- Perturbation 3 of `inject` (generator.py lines 236-244): cache purge. -/
def purgeStep (d : InjectDraw) (m : MetricRecord) : MetricRecord :=
  if d.purgeTrial < 1/100 then
    let hit_num := pyInt ((m.req_num : ℚ) * d.purgeRate)
    let hit_flux := pyInt ((m.flux : ℚ) * d.purgeRate)
    { m with hit_num := hit_num,
             bs_num := m.req_num - hit_num,
             hit_flux := hit_flux,
             bs_flux := m.flux - hit_flux }
  else m

/-- Perturbation 4 of `inject` (generator.py lines 246-250): DDoS / crawler. -/
def ddosStep (d : InjectDraw) (m : MetricRecord) : MetricRecord :=
  if d.ddosTrial < 5/1000 then
    let spike_4xx := pyInt ((m.req_num : ℚ) * d.ddosPct)
    { m with http_code_4xx := spike_4xx,
             http_code_2xx := max 0 (m.http_code_2xx - spike_4xx) }
  else m

/-- `AnomalyInjector.inject` applies the four perturbations in source order
to the same record. -/
def inject (anomaly_probability : ℚ) (hour : ℕ) (m : MetricRecord) (d : InjectDraw) :
    MetricRecord :=
  ddosStep d (purgeStep d (outageStep anomaly_probability d (maintenanceStep hour d m)))

/-- The random draws one region iteration of
`MultiDimensionDistributor.distribute` consumes: the `random.uniform(0.9,
1.1)` weight jitter and the `random.choice` pick from the domain list,
modelled as the chosen index. -/
structure DistDraw where
  jitter : ℚ
  domainIdx : ℕ

/-- Ranges guaranteed by the `random` calls in `distribute` against a domain
list of length `nd`. -/
def DistDraw.Valid (nd : ℕ) (d : DistDraw) : Prop :=
  9/10 ≤ d.jitter ∧ d.jitter ≤ 11/10 ∧ d.domainIdx < nd

/-- One log entry built by `distribute` (generator.py lines 289-297): the
dimension tags plus the scaled copy of the metric dict. -/
structure LogEntry where
  tenantId : String
  start_time : ℤ
  country : String
  region : String
  domain : String
  interval : ℕ
  metrics : MetricRecord
deriving Repr, Inhabited

/-- The dict comprehension `{k: int(v * actual_weight) if isinstance(v, int)
else v for k, v in global_metrics.items()}` applied to a metric record, all
of whose values are ints (generator.py lines 281-284). -/
def scaleRecord (m : MetricRecord) (actual_weight : ℚ) : MetricRecord :=
  { bw := pyInt ((m.bw : ℚ) * actual_weight)
    flux := pyInt ((m.flux : ℚ) * actual_weight)
    bs_bw := pyInt ((m.bs_bw : ℚ) * actual_weight)
    bs_flux := pyInt ((m.bs_flux : ℚ) * actual_weight)
    req_num := pyInt ((m.req_num : ℚ) * actual_weight)
    hit_num := pyInt ((m.hit_num : ℚ) * actual_weight)
    bs_num := pyInt ((m.bs_num : ℚ) * actual_weight)
    bs_fail_num := pyInt ((m.bs_fail_num : ℚ) * actual_weight)
    hit_flux := pyInt ((m.hit_flux : ℚ) * actual_weight)
    http_code_2xx := pyInt ((m.http_code_2xx : ℚ) * actual_weight)
    http_code_3xx := pyInt ((m.http_code_3xx : ℚ) * actual_weight)
    http_code_4xx := pyInt ((m.http_code_4xx : ℚ) * actual_weight)
    http_code_5xx := pyInt ((m.http_code_5xx : ℚ) * actual_weight)
    bs_http_code_2xx := pyInt ((m.bs_http_code_2xx : ℚ) * actual_weight)
    bs_http_code_3xx := pyInt ((m.bs_http_code_3xx : ℚ) * actual_weight)
    bs_http_code_4xx := pyInt ((m.bs_http_code_4xx : ℚ) * actual_weight)
    bs_http_code_5xx := pyInt ((m.bs_http_code_5xx : ℚ) * actual_weight) }

/-- The per-value kernel of the same dict comprehension, on a value that may
be a Python int or a Python float: ints are scaled and truncated, floats
pass through unchanged. -/
inductive PyVal where
  | intV (n : ℤ)
  | floatV (q : ℚ)
deriving Repr, DecidableEq

/-- Comprehension kernel `int(v * actual_weight) if isinstance(v, int) else v`. -/
def scaleValue (v : PyVal) (actual_weight : ℚ) : PyVal :=
  match v with
  | .intV n => .intV (pyInt ((n : ℚ) * actual_weight))
  | .floatV q => .floatV q

/-- `MultiDimensionDistributor.distribute` (generator.py lines 263-301): one
log entry per configured region, in configuration order; `draws r` supplies
region `r`'s jitter and domain pick. -/
def distribute (cfg : Config) (global_metrics : MetricRecord) (timestamp_ms : ℤ)
    (draws : ℕ → DistDraw) : List LogEntry :=
  (List.range cfg.regions.length).map fun r =>
    let region_info := cfg.regions.getD r ⟨"", "", 0⟩
    let actual_weight := region_info.weight * (draws r).jitter
    { tenantId := cfg.tenant_id
      start_time := timestamp_ms
      country := region_info.country
      region := region_info.region
      domain := cfg.domains.getD (draws r).domainIdx ""
      interval := cfg.interval_seconds
      metrics := scaleRecord global_metrics actual_weight }

/-- The orchestrator `CDNLogGenerator.generate_full_month` (generator.py
lines 317-377), restricted to the full log list it returns: the generated
curve, and per interval index the derive → inject → distribute pipeline.
`startMs` is the epoch-millisecond timestamp of `start_date`; `hourOf i` is
the local-time hour `datetime.fromtimestamp(...).hour` of interval `i`. -/
def generate_full_month_logs (cfg : Config) (sinT : ℕ → ℚ) (genDraws : ℕ → CurveDraw)
    (derDraws : ℕ → DeriveDraw) (injDraws : ℕ → InjectDraw)
    (distDraws : ℕ → ℕ → DistDraw) (startMs : ℤ) (hourOf : ℕ → ℕ) : List LogEntry :=
  let bandwidth_curve := generate cfg sinT genDraws
  ((List.range bandwidth_curve.length).map fun (i : ℕ) =>
    let timestamp_ms := startMs + (i : ℤ) * cfg.interval_seconds * 1000
    let metrics := derive (bandwidth_curve.getD i 0) cfg.interval_seconds (derDraws i)
    let metrics := inject cfg.anomaly_probability (hourOf i) metrics (injDraws i)
    distribute cfg metrics timestamp_ms (distDraws i)).flatten

/-- The summary p95 index of `generate_full_month` (generator.py line 336):
`int(len(sorted_bw) * 0.95)`, with no `- 1`. -/
def summaryIdx (n : ℕ) : ℕ :=
  n * 95 / 100

/-- The stats dict built by `Percentile95Validator.calculate_p95`
(validator.py lines 36-52) for a non-empty input. -/
structure P95Stats where
  total_points : ℕ
  min : ℚ
  max : ℚ
  avg : ℚ
  p50 : ℚ
  p95 : ℚ
  p99 : ℚ
  top5_count : ℕ
  top5_min : ℚ
  top5_max : ℚ
  top5_avg : ℚ
deriving Repr, DecidableEq, Inhabited

/-- What `calculate_p95` returns: either the sentinel dict
`{"error": "空数据"}` (a normal return value, not a raised exception) or the
stats dict. -/
inductive P95Result where
  | sentinel (msg : String)
  | stats (s : P95Stats)
deriving Repr, DecidableEq

/-- The analyzer's p95 index `int(total * 0.95)` (validator.py line 33),
with no `- 1` offset and no clamping. -/
def analyzerIdx (total : ℕ) : ℕ :=
  total * 95 / 100

/-- `Percentile95Validator.calculate_p95` (validator.py lines 14-54): on an
empty list return the sentinel error dict; otherwise sort ascending and read
off the percentile ladder. -/
def calculate_p95 (values : List ℚ) : P95Result :=
  if values = [] then .sentinel "空数据"
  else
    let sorted_values := pySorted values
    let total := values.length
    let p50_index := total / 2
    let p95_index := analyzerIdx total
    let p99_index := total * 99 / 100
    let top := sorted_values.drop p95_index
    .stats
      { total_points := total
        min := sorted_values.getD 0 0
        max := sorted_values.getLastD 0
        avg := sorted_values.sum / total
        p50 := sorted_values.getD p50_index 0
        p95 := sorted_values.getD p95_index 0
        p99 := sorted_values.getD p99_index 0
        top5_count := total - p95_index
        top5_min := sorted_values.getD p95_index 0
        top5_max := sorted_values.getLastD 0
        top5_avg := top.sum / (total - p95_index) }

/-- Projection used by `validate_logs` when it reads `overall_stats["avg"]`
and `["p95"]`; the code only ever does this on a non-empty log list, where
`calculate_p95` produced the stats dict (on the sentinel dict those key
accesses would raise). -/
def statsOf : P95Result → P95Stats
  | .stats s => s
  | .sentinel _ => default

/-- The `validation` sub-dict returned by
`Percentile95Validator.validate_logs` (validator.py lines 84-90). -/
structure Validation where
  target_gbps : ℚ
  actual_avg_gbps : ℚ
  actual_p95_gbps : ℚ
  deviation_percent : ℚ
  passed : Bool
deriving Repr, DecidableEq

/-- The validation component of `Percentile95Validator.validate_logs`
(validator.py lines 57-109): extract `log["bw"] / 1024` per log, compute the
overall stats, and flag `passed` when the average deviates from the target
by less than 5 %.  The per-region and per-domain stat groups the full return
value also carries are reproducible with `calculate_p95` on the grouped
bandwidth sub-lists; they do not feed the `validation` sub-dict modelled
here. -/
def validate_logs (logs : List LogEntry) (target_gbps : ℚ) : Validation :=
  let bandwidths := logs.map (fun log => (log.metrics.bw : ℚ) / 1024)
  let overall_stats := statsOf (calculate_p95 bandwidths)
  let actual_avg := overall_stats.avg
  let deviation := |actual_avg - target_gbps| / target_gbps * 100
  { target_gbps := target_gbps
    actual_avg_gbps := actual_avg
    actual_p95_gbps := overall_stats.p95
    deviation_percent := deviation
    passed := decide (deviation < 5) }

/-- The configuration of the spec's round-trip scenario: target 20 Gbps,
one day, 300-second intervals (288 samples), 5 % burst probability, one
region of weight 1 and one domain. -/
def roundtripCfg : Config :=
  ⟨20, 1, 300, 1/20, 1/1000, "t", ["d"], [⟨"CN", "beijing", 1⟩]⟩

/-- A concrete in-range draw sequence for the curve generator: the first 24
points burst (trial 0 < 1/20) with factor 3 and noise 1.08, every later
point does not burst (trial 0.99 ≥ 1/20) and carries noise 0.92. -/
def roundtripCurveDraws (i : ℕ) : CurveDraw :=
  if i < 24 then ⟨27/25, 0, 3⟩ else ⟨23/25, 99/100, 2⟩

/-- Distribution draws for the round-trip scenario: jitter exactly 1 (inside
[0.9, 1.1]) and the first domain. -/
def roundtripDistDraws (_i _r : ℕ) : DistDraw := ⟨1, 0⟩

/-- No count field of the record is negative (the safety property C8 is
about). -/
def MetricRecord.NonNeg (m : MetricRecord) : Prop :=
  0 ≤ m.bw ∧ 0 ≤ m.flux ∧ 0 ≤ m.bs_bw ∧ 0 ≤ m.bs_flux ∧ 0 ≤ m.req_num ∧
  0 ≤ m.hit_num ∧ 0 ≤ m.bs_num ∧ 0 ≤ m.bs_fail_num ∧ 0 ≤ m.hit_flux ∧
  0 ≤ m.http_code_2xx ∧ 0 ≤ m.http_code_3xx ∧ 0 ≤ m.http_code_4xx ∧
  0 ≤ m.http_code_5xx ∧ 0 ≤ m.bs_http_code_2xx ∧ 0 ≤ m.bs_http_code_3xx ∧
  0 ≤ m.bs_http_code_4xx ∧ 0 ≤ m.bs_http_code_5xx

/- Basic facts about the `pyInt` truncation. -/

theorem pyInt_of_nonneg {q : ℚ} (h : 0 ≤ q) : pyInt q = ⌊q⌋ := by
  rw [pyInt, if_neg (not_lt.mpr h)]

theorem pyInt_nonneg {q : ℚ} (h : 0 ≤ q) : 0 ≤ pyInt q := by
  rw [pyInt_of_nonneg h]
  exact Int.floor_nonneg.mpr h

theorem pyInt_le_of_le {q : ℚ} {n : ℤ} (h0 : 0 ≤ q) (h : q ≤ (n : ℚ)) : pyInt q ≤ n := by
  rw [pyInt_of_nonneg h0]
  exact Int.floor_le_iff.mpr (lt_of_le_of_lt h (by norm_num))

theorem le_pyInt_of_le {q : ℚ} {n : ℤ} (h0 : 0 ≤ q) (h : (n : ℚ) ≤ q) : n ≤ pyInt q := by
  rw [pyInt_of_nonneg h0]
  exact Int.le_floor.mpr h

theorem pyInt_cast_le {q : ℚ} (h : 0 ≤ q) : (pyInt q : ℚ) ≤ q := by
  rw [pyInt_of_nonneg h]
  exact Int.floor_le q

theorem pyInt_intCast (n : ℤ) : pyInt (n : ℚ) = n := by
  rcases le_or_lt 0 n with h | h
  · rw [pyInt_of_nonneg (by exact_mod_cast h), Int.floor_intCast]
  · rw [pyInt, if_pos (by exact_mod_cast h), ← Int.cast_neg, Int.floor_intCast, neg_neg]

/- Field-preservation facts for the four perturbation steps. -/

theorem maintenanceStep_bs_fields (hour : ℕ) (d : InjectDraw) (m : MetricRecord) :
    (maintenanceStep hour d m).bs_num = m.bs_num ∧
    (maintenanceStep hour d m).bs_fail_num = m.bs_fail_num ∧
    (maintenanceStep hour d m).bs_http_code_5xx = m.bs_http_code_5xx ∧
    (maintenanceStep hour d m).bs_http_code_2xx = m.bs_http_code_2xx := by
  unfold maintenanceStep
  split_ifs <;> exact ⟨rfl, rfl, rfl, rfl⟩

theorem purgeStep_outage_fields (d : InjectDraw) (m : MetricRecord) :
    (purgeStep d m).bs_fail_num = m.bs_fail_num ∧
    (purgeStep d m).bs_http_code_5xx = m.bs_http_code_5xx ∧
    (purgeStep d m).bs_http_code_2xx = m.bs_http_code_2xx := by
  unfold purgeStep
  split_ifs <;> exact ⟨rfl, rfl, rfl⟩

theorem ddosStep_outage_fields (d : InjectDraw) (m : MetricRecord) :
    (ddosStep d m).bs_fail_num = m.bs_fail_num ∧
    (ddosStep d m).bs_http_code_5xx = m.bs_http_code_5xx ∧
    (ddosStep d m).bs_http_code_2xx = m.bs_http_code_2xx := by
  unfold ddosStep
  split_ifs <;> exact ⟨rfl, rfl, rfl⟩

/-- C6: `MetricsDerivator.derive` always returns a record with
`hit_num + bs_num = req_num` (cache hits and origin requests partition the
request count), and `req_num ≥ 1`, for every bandwidth value, interval
length, and draw sequence. -/
theorem derive_hit_bs_partition (bandwidth_gbps : ℚ) (interval_seconds : ℕ)
    (d : DeriveDraw) :
    (derive bandwidth_gbps interval_seconds d).hit_num +
      (derive bandwidth_gbps interval_seconds d).bs_num =
      (derive bandwidth_gbps interval_seconds d).req_num ∧
    1 ≤ (derive bandwidth_gbps interval_seconds d).req_num := by
  constructor
  · simp only [derive]
    omega
  · simp only [derive]
    omega

/-- C10: `hit_flux + bs_flux = flux` holds on every record produced by
`derive`, and `inject` preserves the equality under every combination of
perturbations (in particular the cache-purge branch recomputes
`bs_flux := flux - hit_flux`). -/
theorem flux_partition_invariant :
    (∀ (bandwidth_gbps : ℚ) (interval_seconds : ℕ) (dd : DeriveDraw),
        (derive bandwidth_gbps interval_seconds dd).hit_flux +
          (derive bandwidth_gbps interval_seconds dd).bs_flux =
          (derive bandwidth_gbps interval_seconds dd).flux) ∧
    (∀ (anomaly_probability : ℚ) (hour : ℕ) (m : MetricRecord) (di : InjectDraw),
        m.hit_flux + m.bs_flux = m.flux →
        (inject anomaly_probability hour m di).hit_flux +
          (inject anomaly_probability hour m di).bs_flux =
          (inject anomaly_probability hour m di).flux) := by
  constructor
  · intro bandwidth_gbps interval_seconds dd
    simp only [derive]
    omega
  · intro anomaly_probability hour m di hm
    simp only [inject, ddosStep, purgeStep, outageStep, maintenanceStep]
    split_ifs <;> (try simp) <;> omega

/-- Witness for C10's conditional part at a concrete record satisfying the
flux partition equality. -/
theorem flux_partition_invariant_witness :
    ((default : MetricRecord).hit_flux + (default : MetricRecord).bs_flux =
      (default : MetricRecord).flux) ∧
    (inject 0 0 default ⟨0, 0, 0, 0, 0, 0, 0, 0⟩).hit_flux +
      (inject 0 0 default ⟨0, 0, 0, 0, 0, 0, 0, 0⟩).bs_flux =
      (inject 0 0 default ⟨0, 0, 0, 0, 0, 0, 0, 0⟩).flux :=
  ⟨rfl, flux_partition_invariant.2 0 0 default ⟨0, 0, 0, 0, 0, 0, 0, 0⟩ rfl⟩

/-- C7: when the origin-outage perturbation fires (`outageTrial <
anomaly_probability`) on a record with `bs_num = 1000`, the injected record
has `bs_fail_num ∈ [300, 800]`, `bs_http_code_5xx = bs_fail_num` exactly,
and `bs_http_code_2xx = max 0 (1000 - bs_fail_num)`. -/
theorem outage_on_1000_origin (anomaly_probability : ℚ) (hour : ℕ)
    (m : MetricRecord) (d : InjectDraw) (hv : d.Valid) (hbs : m.bs_num = 1000)
    (hfire : d.outageTrial < anomaly_probability) :
    300 ≤ (inject anomaly_probability hour m d).bs_fail_num ∧
    (inject anomaly_probability hour m d).bs_fail_num ≤ 800 ∧
    (inject anomaly_probability hour m d).bs_http_code_5xx =
      (inject anomaly_probability hour m d).bs_fail_num ∧
    (inject anomaly_probability hour m d).bs_http_code_2xx =
      max 0 (1000 - (inject anomaly_probability hour m d).bs_fail_num) := by
  obtain ⟨-, -, -, -, -, -, hrlo, hrhi, -⟩ := hv
  have hm1 := maintenanceStep_bs_fields hour d m
  set m1 := maintenanceStep hour d m with hm1def
  have houtage : outageStep anomaly_probability d m1 =
      { m1 with bs_fail_num := pyInt ((m1.bs_num : ℚ) * d.outageRate),
                bs_http_code_5xx := pyInt ((m1.bs_num : ℚ) * d.outageRate),
                bs_http_code_2xx := max 0 (m1.bs_num - pyInt ((m1.bs_num : ℚ) * d.outageRate)) } := by
    unfold outageStep
    rw [if_pos hfire]
  have hbs1 : m1.bs_num = 1000 := hm1.1.trans hbs
  set fail := pyInt ((m1.bs_num : ℚ) * d.outageRate) with hfail
  have hq : (m1.bs_num : ℚ) * d.outageRate = 1000 * d.outageRate := by
    rw [hbs1]; norm_num
  have hq0 : 0 ≤ (m1.bs_num : ℚ) * d.outageRate := by
    rw [hq]; positivity
  have hlo : 300 ≤ fail := by
    rw [hfail]
    exact le_pyInt_of_le hq0 (by rw [hq]; push_cast; linarith)
  have hhi : fail ≤ 800 := by
    rw [hfail]
    exact pyInt_le_of_le hq0 (by rw [hq]; push_cast; linarith)
  have h2 := purgeStep_outage_fields d (outageStep anomaly_probability d m1)
  have h3 := ddosStep_outage_fields d (purgeStep d (outageStep anomaly_probability d m1))
  have hfinal : (inject anomaly_probability hour m d).bs_fail_num = fail ∧
      (inject anomaly_probability hour m d).bs_http_code_5xx = fail ∧
      (inject anomaly_probability hour m d).bs_http_code_2xx = max 0 (1000 - fail) := by
    unfold inject
    rw [← hm1def]
    refine ⟨h3.1.trans (h2.1.trans ?_), h3.2.1.trans (h2.2.1.trans ?_),
        h3.2.2.trans (h2.2.2.trans ?_)⟩
    · rw [houtage]
    · rw [houtage]
    · rw [houtage]
      simp only []
      rw [hbs1]
  exact ⟨hfinal.1 ▸ hlo, hfinal.1 ▸ hhi, hfinal.2.1.trans hfinal.1.symm,
    hfinal.1 ▸ hfinal.2.2⟩

/-- Witness for C7 at a concrete record with `bs_num = 1000` and a concrete
valid draw whose outage trial succeeds against probability 1. -/
theorem outage_on_1000_origin_witness :
    300 ≤ (inject 1 0 ⟨0, 0, 0, 0, 0, 0, 1000, 0, 0, 0, 0, 0, 0, 0, 0, 0, 0⟩
      ⟨1/2, 1/10, 0, 1/2, 1/2, 6/10, 1/2, 3/10⟩).bs_fail_num ∧
    (inject 1 0 ⟨0, 0, 0, 0, 0, 0, 1000, 0, 0, 0, 0, 0, 0, 0, 0, 0, 0⟩
      ⟨1/2, 1/10, 0, 1/2, 1/2, 6/10, 1/2, 3/10⟩).bs_fail_num ≤ 800 ∧
    (inject 1 0 ⟨0, 0, 0, 0, 0, 0, 1000, 0, 0, 0, 0, 0, 0, 0, 0, 0, 0⟩
      ⟨1/2, 1/10, 0, 1/2, 1/2, 6/10, 1/2, 3/10⟩).bs_http_code_5xx =
      (inject 1 0 ⟨0, 0, 0, 0, 0, 0, 1000, 0, 0, 0, 0, 0, 0, 0, 0, 0, 0⟩
        ⟨1/2, 1/10, 0, 1/2, 1/2, 6/10, 1/2, 3/10⟩).bs_fail_num ∧
    (inject 1 0 ⟨0, 0, 0, 0, 0, 0, 1000, 0, 0, 0, 0, 0, 0, 0, 0, 0, 0⟩
      ⟨1/2, 1/10, 0, 1/2, 1/2, 6/10, 1/2, 3/10⟩).bs_http_code_2xx =
      max 0 (1000 - (inject 1 0 ⟨0, 0, 0, 0, 0, 0, 1000, 0, 0, 0, 0, 0, 0, 0, 0, 0, 0⟩
        ⟨1/2, 1/10, 0, 1/2, 1/2, 6/10, 1/2, 3/10⟩).bs_fail_num) :=
  outage_on_1000_origin 1 0 ⟨0, 0, 0, 0, 0, 0, 1000, 0, 0, 0, 0, 0, 0, 0, 0, 0, 0⟩
    ⟨1/2, 1/10, 0, 1/2, 1/2, 6/10, 1/2, 3/10⟩
    (by refine ⟨?_, ?_, ?_, ?_, ?_, ?_, ?_, ?_, ?_, ?_, ?_, ?_, ?_, ?_, ?_, ?_⟩ <;> norm_num)
    rfl (by norm_num)

/- Non-negativity preservation, step by step. -/

theorem pyInt_mul_nonneg {a : ℤ} {r : ℚ} (ha : 0 ≤ a) (hr : 0 ≤ r) :
    0 ≤ pyInt ((a : ℚ) * r) :=
  pyInt_nonneg (mul_nonneg (by exact_mod_cast ha) hr)

theorem pyInt_mul_le_self {a : ℤ} {r : ℚ} (ha : 0 ≤ a) (hr0 : 0 ≤ r) (hr1 : r ≤ 1) :
    pyInt ((a : ℚ) * r) ≤ a :=
  pyInt_le_of_le (mul_nonneg (by exact_mod_cast ha) hr0)
    (mul_le_of_le_one_right (by exact_mod_cast ha) hr1)

theorem maintenanceStep_nonneg {hour : ℕ} {d : InjectDraw} {m : MetricRecord}
    (hv : d.Valid) (hm : m.NonNeg) : (maintenanceStep hour d m).NonNeg := by
  obtain ⟨h1, h2, h3, h4, h5, h6, h7, h8, h9, h10, h11, h12, h13, h14, h15, h16, h17⟩ := hm
  unfold maintenanceStep
  split_ifs
  · exact ⟨h1, h2, h3, h4, h5, h6, h7, h8, h9, le_max_left 0 _, h11, h12,
      pyInt_mul_nonneg h5 (le_trans (by norm_num) hv.2.2.1), h14, h15, h16, h17⟩
  · exact ⟨h1, h2, h3, h4, h5, h6, h7, h8, h9, h10, h11, h12, h13, h14, h15, h16, h17⟩

theorem outageStep_nonneg {p : ℚ} {d : InjectDraw} {m : MetricRecord}
    (hv : d.Valid) (hm : m.NonNeg) : (outageStep p d m).NonNeg := by
  obtain ⟨h1, h2, h3, h4, h5, h6, h7, h8, h9, h10, h11, h12, h13, h14, h15, h16, h17⟩ := hm
  unfold outageStep
  split_ifs
  · exact ⟨h1, h2, h3, h4, h5, h6, h7,
      pyInt_mul_nonneg h7 (le_trans (by norm_num) hv.2.2.2.2.2.2.1), h9, h10, h11, h12,
      h13, le_max_left 0 _, h15, h16,
      pyInt_mul_nonneg h7 (le_trans (by norm_num) hv.2.2.2.2.2.2.1)⟩
  · exact ⟨h1, h2, h3, h4, h5, h6, h7, h8, h9, h10, h11, h12, h13, h14, h15, h16, h17⟩

theorem purgeStep_nonneg {d : InjectDraw} {m : MetricRecord}
    (hv : d.Valid) (hm : m.NonNeg) : (purgeStep d m).NonNeg := by
  obtain ⟨h1, h2, h3, h4, h5, h6, h7, h8, h9, h10, h11, h12, h13, h14, h15, h16, h17⟩ := hm
  have hrate0 : (0 : ℚ) ≤ d.purgeRate := le_trans (by norm_num) hv.2.2.2.2.2.2.2.2.2.2.1
  have hrate1 : d.purgeRate ≤ 1 := le_trans hv.2.2.2.2.2.2.2.2.2.2.2.1 (by norm_num)
  unfold purgeStep
  split_ifs
  · refine ⟨h1, h2, h3, ?_, h5, pyInt_mul_nonneg h5 hrate0, ?_, h8,
      pyInt_mul_nonneg h2 hrate0, h10, h11, h12, h13, h14, h15, h16, h17⟩
    · simp only []
      have := pyInt_mul_le_self h2 hrate0 hrate1
      omega
    · simp only []
      have := pyInt_mul_le_self h5 hrate0 hrate1
      omega
  · exact ⟨h1, h2, h3, h4, h5, h6, h7, h8, h9, h10, h11, h12, h13, h14, h15, h16, h17⟩

theorem ddosStep_nonneg {d : InjectDraw} {m : MetricRecord}
    (hv : d.Valid) (hm : m.NonNeg) : (ddosStep d m).NonNeg := by
  obtain ⟨h1, h2, h3, h4, h5, h6, h7, h8, h9, h10, h11, h12, h13, h14, h15, h16, h17⟩ := hm
  unfold ddosStep
  split_ifs
  · exact ⟨h1, h2, h3, h4, h5, h6, h7, h8, h9, le_max_left 0 _, h11,
      pyInt_mul_nonneg h5 (le_trans (by norm_num) hv.2.2.2.2.2.2.2.2.2.2.2.2.2.2.1),
      h13, h14, h15, h16, h17⟩
  · exact ⟨h1, h2, h3, h4, h5, h6, h7, h8, h9, h10, h11, h12, h13, h14, h15, h16, h17⟩

/-- C8: on any record whose count fields are non-negative, `inject` returns
a record with no negative count field, for every draw sequence in the
ranges the `random` calls guarantee: every donor bucket is clamped at zero
and no perturbation introduces a negative value. -/
theorem inject_no_negative_counts (anomaly_probability : ℚ) (hour : ℕ)
    (m : MetricRecord) (d : InjectDraw) (hv : d.Valid) (hm : m.NonNeg) :
    (inject anomaly_probability hour m d).NonNeg :=
  ddosStep_nonneg hv (purgeStep_nonneg hv
    (outageStep_nonneg hv (maintenanceStep_nonneg hv hm)))

/-- Witness for C8 at the all-zero record and a concrete valid draw. -/
theorem inject_no_negative_counts_witness :
    (⟨1/2, 1/10, 1/2, 1/2, 0, 6/10, 1/2, 3/10⟩ : InjectDraw).Valid ∧
    (default : MetricRecord).NonNeg ∧
    (inject 0 3 default ⟨1/2, 1/10, 1/2, 1/2, 0, 6/10, 1/2, 3/10⟩).NonNeg := by
  have hv : (⟨1/2, 1/10, 1/2, 1/2, 0, 6/10, 1/2, 3/10⟩ : InjectDraw).Valid := by
    refine ⟨?_, ?_, ?_, ?_, ?_, ?_, ?_, ?_, ?_, ?_, ?_, ?_, ?_, ?_, ?_, ?_⟩ <;> norm_num
  have hm : (default : MetricRecord).NonNeg := by
    refine ⟨?_, ?_, ?_, ?_, ?_, ?_, ?_, ?_, ?_, ?_, ?_, ?_, ?_, ?_, ?_, ?_, ?_⟩ <;> decide
  exact ⟨hv, hm, inject_no_negative_counts 0 3 default _ hv hm⟩

/-- Counterexample for C5: at `n = 20` the analyzer's p95 index
(validator.py line 33) is `int(20 * 0.95) = 19`, not the
`int(n * 0.95) - 1 = 18` the claim attributes to it; so the analyzer agrees
with the orchestrator's summary index and disagrees with calibration. -/
theorem analyzerIdx_ne_calibIdx_at_20 :
    analyzerIdx 20 = 19 ∧ calibIdx 20 = 18 ∧ summaryIdx 20 = 19 ∧
    ¬((analyzerIdx 20 : ℤ) = calibIdx 20) := by
  refine ⟨by decide, by decide, by decide, by decide⟩

/-- C5 amended: the analyzer (`calculate_p95`) and the orchestrator summary
use the same p95 index `int(n * 0.95)`, and for every `n ≥ 2` the
calibration index `calc_daily_p95` uses is exactly one position lower; it
is calibration that diverges from the other two, not the orchestrator. -/
theorem percentile_idx_relation (n : ℕ) (h : 2 ≤ n) :
    analyzerIdx n = summaryIdx n ∧ calibIdx n = (summaryIdx n : ℤ) - 1 := by
  refine ⟨rfl, ?_⟩
  unfold calibIdx summaryIdx
  have h1 : 1 ≤ n * 95 / 100 := by omega
  have h2 : n * 95 / 100 < n := by omega
  simp only []
  split_ifs <;> omega

/-- Witness for C5's amended statement at `n = 20`. -/
theorem percentile_idx_relation_witness :
    (2 ≤ 20) ∧
    (analyzerIdx 20 = summaryIdx 20 ∧ calibIdx 20 = (summaryIdx 20 : ℤ) - 1) :=
  ⟨by norm_num, percentile_idx_relation 20 (by norm_num)⟩

/-- Counterexample for C3: on empty input `calculate_p95` returns the
sentinel error dict `{"error": "空数据"}` as a normal value — it does not
fail with an EmptyInputError as the claim states. -/
theorem calculate_p95_empty_returns_sentinel :
    calculate_p95 [] = P95Result.sentinel "空数据" := rfl

/-- C3 amended: `calculate_p95` returns the sentinel error dict on empty
input (rather than raising a distinguished error), and a Stats result on
every non-empty input. -/
theorem calculate_p95_empty_vs_nonempty (values : List ℚ) :
    (values = [] → calculate_p95 values = P95Result.sentinel "空数据") ∧
    (values ≠ [] → ∃ s : P95Stats, calculate_p95 values = P95Result.stats s) := by
  constructor
  · intro h
    subst h
    rfl
  · intro h
    unfold calculate_p95
    rw [if_neg h]
    exact ⟨_, rfl⟩

/-- Witness for C3's amended statement on `[]` and on `[1]`. -/
theorem calculate_p95_empty_vs_nonempty_witness :
    calculate_p95 [] = P95Result.sentinel "空数据" ∧
    ∃ s : P95Stats, calculate_p95 [1] = P95Result.stats s :=
  ⟨(calculate_p95_empty_vs_nonempty []).1 rfl,
    (calculate_p95_empty_vs_nonempty [1]).2 (by simp)⟩

/-- C9: `distribute` returns one `LogEntry` per configured region, in
configuration order; entry `r` copies tenant id, timestamp, region `r`'s
country/region, a domain read from the configured domain list, and the
interval length, with the metric record scaled by the region's weight times
its jitter draw, each scaled field truncated with `int(...)`.  The
comprehension's kernel passes non-int values through unscaled, and the
scaled entries need not sum back to the source record (last conjunct: a
concrete run where the region sums differ from the source). -/
theorem distribute_one_entry_per_region (cfg : Config) (m : MetricRecord) (ts : ℤ)
    (draws : ℕ → DistDraw) (hvalid : ∀ r, (draws r).Valid cfg.domains.length) :
    (distribute cfg m ts draws).length = cfg.regions.length ∧
    (∀ r, r < cfg.regions.length →
      (distribute cfg m ts draws).getD r default =
        { tenantId := cfg.tenant_id
          start_time := ts
          country := (cfg.regions.getD r ⟨"", "", 0⟩).country
          region := (cfg.regions.getD r ⟨"", "", 0⟩).region
          domain := cfg.domains.getD (draws r).domainIdx ""
          interval := cfg.interval_seconds
          metrics := scaleRecord m ((cfg.regions.getD r ⟨"", "", 0⟩).weight * (draws r).jitter) } ∧
      cfg.domains.getD (draws r).domainIdx "" ∈ cfg.domains) ∧
    (∀ (v : ℚ) (aw : ℚ), scaleValue (.floatV v) aw = .floatV v) ∧
    (∀ (n : ℤ) (aw : ℚ), scaleValue (.intV n) aw = .intV (pyInt ((n : ℚ) * aw))) ∧
    (∃ (cfg' : Config) (m' : MetricRecord) (draws' : ℕ → DistDraw),
      (∀ r, (draws' r).Valid cfg'.domains.length) ∧
      ((distribute cfg' m' 0 draws').map (fun e => e.metrics.req_num)).sum ≠ m'.req_num) := by
  have hlen : (distribute cfg m ts draws).length = cfg.regions.length := by
    unfold distribute
    simp
  refine ⟨hlen, ?_, fun v aw => rfl, fun n aw => rfl, ?_⟩
  · intro r hr
    constructor
    · unfold distribute
      rw [List.getD_eq_getElem _ _ (by simpa using hr)]
      simp
    · have hidx : (draws r).domainIdx < cfg.domains.length := (hvalid r).2.2
      rw [List.getD_eq_getElem _ _ hidx]
      exact List.getElem_mem hidx
  · refine ⟨⟨20, 1, 300, 0, 0, "t", ["d"], [⟨"CN", "beijing", 1⟩]⟩,
      ⟨0, 0, 0, 0, 9000, 0, 0, 0, 0, 0, 0, 0, 0, 0, 0, 0, 0⟩,
      fun _ => ⟨9/10, 0⟩, fun r => ⟨by norm_num, by norm_num, by norm_num⟩, ?_⟩
    have h8100 : pyInt ((9000 : ℚ) * (9/10)) = 8100 := by
      rw [pyInt_of_nonneg (by norm_num)]
      norm_num
    simp [distribute, scaleRecord, List.range_succ, h8100]

/- Facts about `pySorted` and the calibration percentile. -/

theorem pySorted_perm (l : List ℚ) : (pySorted l).Perm l :=
  List.perm_insertionSort _ l

theorem pySorted_sorted (l : List ℚ) : List.Sorted (· ≤ ·) (pySorted l) :=
  List.sorted_insertionSort _ l

theorem pySorted_length (l : List ℚ) : (pySorted l).length = l.length :=
  (pySorted_perm l).length_eq

theorem calibIdx_nonneg (n : ℕ) (h : 1 ≤ n) : 0 ≤ calibIdx n := by
  simp only [calibIdx]
  split_ifs <;> omega

theorem calibIdx_lt (n : ℕ) (h : 1 ≤ n) : calibIdx n < n := by
  simp only [calibIdx]
  have : n * 95 / 100 < n := by omega
  split_ifs <;> omega

theorem calc_daily_p95_mem {day : List ℚ} (h : day ≠ []) : calc_daily_p95 day ∈ day := by
  unfold calc_daily_p95
  have hn : 1 ≤ day.length := List.length_pos.mpr h
  have hlt : (calibIdx day.length).toNat < (pySorted day).length := by
    rw [pySorted_length]
    have h1 := calibIdx_nonneg day.length hn
    have h2 := calibIdx_lt day.length hn
    omega
  rw [List.getD_eq_getElem _ _ hlt]
  exact (pySorted_perm day).subset (List.getElem_mem hlt)

theorem daySlices_subset {ppd : ℕ} {curve day : List ℚ} (h : day ∈ daySlices ppd curve) :
    day ⊆ curve := by
  unfold daySlices at h
  rw [List.mem_map] at h
  obtain ⟨k, -, rfl⟩ := h
  exact (List.take_subset _ _).trans (List.drop_subset _ _)

theorem dailyP95List_mem {ppd : ℕ} {curve : List ℚ} {y : ℚ}
    (hy : y ∈ dailyP95List ppd curve) : y ∈ curve := by
  unfold dailyP95List at hy
  rw [List.mem_map] at hy
  obtain ⟨day, hday, rfl⟩ := hy
  rw [List.mem_filter] at hday
  obtain ⟨hmem, hcond⟩ := hday
  have hcond' : ppd ≤ 2 * day.length := by simpa using hcond
  have hppd : ppd ≠ 0 := by
    intro h0
    subst h0
    unfold daySlices at hmem
    simp at hmem
  have hne : day ≠ [] := by
    intro h0
    subst h0
    simp at hcond'
    omega
  exact daySlices_subset hmem (calc_daily_p95_mem hne)

theorem rawSample_ge_tenth (cfg : Config) (sinT : ℕ → ℚ) (d : CurveDraw) (i : ℕ) :
    1/10 ≤ rawSample cfg sinT d i :=
  le_max_left _ _

theorem baseCurve_ge_tenth (cfg : Config) (sinT : ℕ → ℚ) (draws : ℕ → CurveDraw) :
    ∀ x ∈ baseCurve cfg sinT draws, 1/10 ≤ x := by
  intro x hx
  rw [baseCurve, List.mem_map] at hx
  obtain ⟨i, -, rfl⟩ := hx
  exact le_max_left _ _

theorem clamp_prod_bounds {t dfac w m n b : ℚ}
    (ht : 26/25 ≤ t)
    (hd1 : 6/10 ≤ dfac) (hd2 : dfac ≤ 13/10)
    (hw1 : 85/100 ≤ w) (hw2 : w ≤ 1)
    (hm1 : 1 ≤ m) (hm2 : m ≤ 115/100)
    (hn1 : 92/100 ≤ n) (hn2 : n ≤ 108/100)
    (hb1 : 1 ≤ b) (hb2 : b ≤ 3) :
    t * (1173/2500) ≤ max (1/10) (t * dfac * w * m * n * b) ∧
    max (1/10) (t * dfac * w * m * n * b) ≤ t * (24219/5000) := by
  have ht0 : (0 : ℚ) < t := by linarith
  have ht0' : (0 : ℚ) ≤ t := le_of_lt ht0
  have h1lo : t * (6/10) ≤ t * dfac := mul_le_mul_of_nonneg_left hd1 ht0'
  have h1hi : t * dfac ≤ t * (13/10) := mul_le_mul_of_nonneg_left hd2 ht0'
  have h1pos : (0 : ℚ) ≤ t * dfac := mul_nonneg ht0' (by linarith)
  have h1pos' : (0 : ℚ) ≤ t * (13/10) := mul_nonneg ht0' (by norm_num)
  have h2lo : t * (6/10) * (85/100) ≤ t * dfac * w :=
    mul_le_mul h1lo hw1 (by norm_num) h1pos
  have h2hi : t * dfac * w ≤ t * (13/10) * 1 :=
    mul_le_mul h1hi hw2 (by linarith) h1pos'
  have h2pos : (0 : ℚ) ≤ t * dfac * w := mul_nonneg h1pos (by linarith)
  have h2pos' : (0 : ℚ) ≤ t * (13/10) * 1 := mul_nonneg h1pos' (by norm_num)
  have h3lo : t * (6/10) * (85/100) * 1 ≤ t * dfac * w * m :=
    mul_le_mul h2lo hm1 (by norm_num) h2pos
  have h3hi : t * dfac * w * m ≤ t * (13/10) * 1 * (115/100) :=
    mul_le_mul h2hi hm2 (by linarith) h2pos'
  have h3pos : (0 : ℚ) ≤ t * dfac * w * m := mul_nonneg h2pos (by linarith)
  have h3pos' : (0 : ℚ) ≤ t * (13/10) * 1 * (115/100) := mul_nonneg h2pos' (by norm_num)
  have h4lo : t * (6/10) * (85/100) * 1 * (92/100) ≤ t * dfac * w * m * n :=
    mul_le_mul h3lo hn1 (by norm_num) h3pos
  have h4hi : t * dfac * w * m * n ≤ t * (13/10) * 1 * (115/100) * (108/100) :=
    mul_le_mul h3hi hn2 (by linarith) h3pos'
  have h4pos : (0 : ℚ) ≤ t * dfac * w * m * n := mul_nonneg h3pos (by linarith)
  have h4pos' : (0 : ℚ) ≤ t * (13/10) * 1 * (115/100) * (108/100) :=
    mul_nonneg h3pos' (by norm_num)
  have h5lo : t * (6/10) * (85/100) * 1 * (92/100) * 1 ≤ t * dfac * w * m * n * b :=
    mul_le_mul h4lo hb1 (by norm_num) h4pos
  have h5hi : t * dfac * w * m * n * b ≤ t * (13/10) * 1 * (115/100) * (108/100) * 3 :=
    mul_le_mul h4hi hb2 (by linarith) h4pos'
  constructor
  · exact le_trans (le_of_eq (by ring)) (le_trans h5lo (le_max_right _ _))
  · apply max_le
    · linarith
    · exact le_trans h5hi (le_of_eq (by ring))

theorem rawSample_bounds (cfg : Config) (sinT : ℕ → ℚ) (d : CurveDraw) (i : ℕ)
    (ht : 26/25 ≤ cfg.target_gbps) (hs : ∀ h, -1 ≤ sinT h ∧ sinT h ≤ 1)
    (hd : d.Valid) :
    cfg.target_gbps * (1173/2500) ≤ rawSample cfg sinT d i ∧
    rawSample cfg sinT d i ≤ cfg.target_gbps * (24219/5000) := by
  obtain ⟨hn1, hn2, -, -, hb1, hb2⟩ := hd
  obtain ⟨hs1, hs2⟩ := hs ((i * (cfg.interval_seconds / 60) / 60) % 24)
  simp only [rawSample]
  apply clamp_prod_bounds ht
  · linarith
  · linarith
  · split_ifs <;> norm_num
  · split_ifs <;> norm_num
  · split_ifs <;> norm_num
  · split_ifs <;> norm_num
  · exact hn1
  · exact hn2
  · split_ifs with hfire
    · linarith
    · norm_num
  · split_ifs with hfire
    · exact hb2
    · norm_num

theorem baseCurve_bounds (cfg : Config) (sinT : ℕ → ℚ) (draws : ℕ → CurveDraw)
    (ht : 26/25 ≤ cfg.target_gbps) (hs : ∀ h, -1 ≤ sinT h ∧ sinT h ≤ 1)
    (hdraws : ∀ i, (draws i).Valid) :
    ∀ x ∈ baseCurve cfg sinT draws,
      cfg.target_gbps * (1173/2500) ≤ x ∧ x ≤ cfg.target_gbps * (24219/5000) := by
  intro x hx
  rw [baseCurve, List.mem_map] at hx
  obtain ⟨i, -, rfl⟩ := hx
  exact rawSample_bounds cfg sinT (draws i) i ht hs (hdraws i)

theorem foldl_max_le {l : List ℚ} {a U : ℚ} (ha : a ≤ U) (h : ∀ x ∈ l, x ≤ U) :
    l.foldl max a ≤ U := by
  induction l generalizing a with
  | nil => exact ha
  | cons y ys ih =>
    exact ih (max_le ha (h y (by simp))) (fun x hx => h x (by simp [hx]))

theorem le_foldl_max (l : List ℚ) (a : ℚ) : a ≤ l.foldl max a := by
  induction l generalizing a with
  | nil => exact le_refl a
  | cons y ys ih => exact le_trans (le_max_left a y) (ih (max a y))

theorem headD_mem {l : List ℚ} (h : l ≠ []) : l.headD 0 ∈ l := by
  cases l with
  | nil => exact absurd rfl h
  | cons y ys => simp

theorem pyMax_le {l : List ℚ} {U : ℚ} (hne : l ≠ []) (h : ∀ x ∈ l, x ≤ U) :
    pyMax l ≤ U :=
  foldl_max_le (h _ (headD_mem hne)) h

theorem le_pyMax {l : List ℚ} {lo : ℚ} (hne : l ≠ []) (h : ∀ x ∈ l, lo ≤ x) :
    lo ≤ pyMax l :=
  le_trans (h _ (headD_mem hne)) (le_foldl_max l _)

theorem avgDailyP95_bounds (ppd : ℕ) (curve : List ℚ) {lo U : ℚ}
    (hlo : ∀ x ∈ curve, lo ≤ x) (hhi : ∀ x ∈ curve, x ≤ U) (hcne : curve ≠ []) :
    lo ≤ avgDailyP95 ppd curve ∧ avgDailyP95 ppd curve ≤ U := by
  simp only [avgDailyP95]
  split_ifs with hl
  · exact ⟨le_pyMax hcne hlo, pyMax_le hcne hhi⟩
  · have hlen : 0 < (dailyP95List ppd curve).length := List.length_pos.mpr hl
    have hlenq : (0 : ℚ) < (dailyP95List ppd curve).length := by exact_mod_cast hlen
    have hsumlo : (dailyP95List ppd curve).length • lo ≤ (dailyP95List ppd curve).sum :=
      List.card_nsmul_le_sum _ lo (fun y hy => hlo y (dailyP95List_mem hy))
    have hsumhi : (dailyP95List ppd curve).sum ≤ (dailyP95List ppd curve).length • U :=
      List.sum_le_card_nsmul _ U (fun y hy => hhi y (dailyP95List_mem hy))
    rw [nsmul_eq_mul] at hsumlo hsumhi
    constructor
    · rw [le_div_iff₀ hlenq]
      linarith
    · rw [div_le_iff₀ hlenq]
      linarith

theorem dailyP95List_singleton (x : ℚ) : dailyP95List 1 [x] = [x] := by
  have hcalc : calc_daily_p95 [x] = x := by
    simp only [calc_daily_p95, List.length_singleton]
    rw [show calibIdx 1 = 0 from by decide]
    simp [pySorted, List.insertionSort, List.orderedInsert]
  simp only [dailyP95List, daySlices, List.length_singleton]
  rw [show ((1 + 1 - 1) / 1 : ℕ) = 1 from by decide, show List.range 1 = [0] from rfl]
  simp [List.filter, hcalc]

theorem avgDailyP95_singleton (x : ℚ) : avgDailyP95 1 [x] = x := by
  rw [avgDailyP95, dailyP95List_singleton]
  simp

/-- C4 amended: the 0.1 Gbps floor holds on the curve `generate` returns
whenever the configured target is at least 1.04 Gbps (every sample of the
pre-calibration curve is ≥ 0.1 by the clamp, and with target ≥ 1.04 the
rescale factor cannot push any sample below 0.1).  For small targets the
floor does not survive calibration — see the counterexample. -/
theorem generate_ge_tenth_for_large_target (cfg : Config) (sinT : ℕ → ℚ)
    (draws : ℕ → CurveDraw) (ht : 26/25 ≤ cfg.target_gbps)
    (hs : ∀ h, -1 ≤ sinT h ∧ sinT h ≤ 1) (hdraws : ∀ i, (draws i).Valid) :
    ∀ x ∈ generate cfg sinT draws, 1/10 ≤ x := by
  intro x hx
  have ht0 : (0 : ℚ) < cfg.target_gbps := by linarith
  rcases eq_or_ne (baseCurve cfg sinT draws) [] with hb | hb
  · rw [generate, hb] at hx
    simp only [adjust_to_target] at hx
    split_ifs at hx <;> simp at hx
  · have hbounds := baseCurve_bounds cfg sinT draws ht hs hdraws
    have havgb := avgDailyP95_bounds (pointsPerDay cfg.interval_seconds)
      (baseCurve cfg sinT draws) (fun y hy => (hbounds y hy).1)
      (fun y hy => (hbounds y hy).2) hb
    have hL_pos : (0 : ℚ) < cfg.target_gbps * (1173/2500) :=
      mul_pos ht0 (by norm_num)
    have havg_pos : 0 < avgDailyP95 (pointsPerDay cfg.interval_seconds)
        (baseCurve cfg sinT draws) :=
      lt_of_lt_of_le hL_pos havgb.1
    rw [generate] at hx
    simp only [adjust_to_target] at hx
    split_ifs at hx with hg
    · rw [List.mem_map] at hx
      obtain ⟨y, hy, rfl⟩ := hx
      have hyL : cfg.target_gbps * (1173/2500) ≤ y := (hbounds y hy).1
      have hU_pos : (0 : ℚ) < cfg.target_gbps * (24219/5000) :=
        mul_pos ht0 (by norm_num)
      have hscale : cfg.target_gbps / (cfg.target_gbps * (24219/5000)) ≤
          cfg.target_gbps / avgDailyP95 (pointsPerDay cfg.interval_seconds)
            (baseCurve cfg sinT draws) :=
        div_le_div_of_nonneg_left (le_of_lt ht0) havg_pos havgb.2
      have hscale_pos : (0 : ℚ) <
          cfg.target_gbps / (cfg.target_gbps * (24219/5000)) := div_pos ht0 hU_pos
      have hmul : cfg.target_gbps * (1173/2500) *
          (cfg.target_gbps / (cfg.target_gbps * (24219/5000))) ≤
          y * (cfg.target_gbps / avgDailyP95 (pointsPerDay cfg.interval_seconds)
            (baseCurve cfg sinT draws)) :=
        mul_le_mul hyL hscale (le_of_lt hscale_pos) (le_trans (le_of_lt hL_pos) hyL)
      have hval : cfg.target_gbps * (1173/2500) *
          (cfg.target_gbps / (cfg.target_gbps * (24219/5000))) =
          cfg.target_gbps * (2346/24219) := by
        field_simp
        ring
      rw [hval] at hmul
      have : (1 : ℚ)/10 ≤ cfg.target_gbps * (2346/24219) := by linarith
      linarith
    · exact baseCurve_ge_tenth cfg sinT draws x hx

/-- Counterexample for C4: with target 0.01 Gbps (a valid configuration:
the spec only requires a positive float), one day and one sample per day,
the raw sample clamps to 0.1, calibration sees deviation 900 % and rescales
by 0.1, and the returned curve's sample is 0.01 < 0.1: the 0.1 floor does
not hold on the final curve. -/
theorem generate_sample_below_tenth :
    ¬ (∀ (cfg : Config) (sinT : ℕ → ℚ) (draws : ℕ → CurveDraw),
        0 < cfg.target_gbps →
        (∀ h, -1 ≤ sinT h ∧ sinT h ≤ 1) →
        (∀ i, (draws i).Valid) →
        ∀ x ∈ generate cfg sinT draws, 1/10 ≤ x) := by
  intro hclaim
  have hraw : rawSample ⟨1/100, 1, 86400, 5/100, 0, "", [""], []⟩ (fun _ => 0)
      ⟨1, 99/100, 2⟩ 0 = 1/10 := by
    simp only [rawSample]
    norm_num [max_def]
  have hbase : baseCurve ⟨1/100, 1, 86400, 5/100, 0, "", [""], []⟩ (fun _ => 0)
      (fun _ => ⟨1, 99/100, 2⟩) = [1/10] := by
    simp only [baseCurve]
    rw [show totalPoints 1 86400 = 1 from by decide,
      show List.range 1 = [0] from rfl, List.map_cons, List.map_nil, hraw]
  have havg : avgDailyP95 1 [(1/10 : ℚ)] = 1/10 := avgDailyP95_singleton _
  have hgen : generate ⟨1/100, 1, 86400, 5/100, 0, "", [""], []⟩ (fun _ => 0)
      (fun _ => ⟨1, 99/100, 2⟩) = [1/100] := by
    unfold generate
    rw [hbase]
    dsimp only
    rw [show pointsPerDay 86400 = 1 from by decide]
    simp only [adjust_to_target]
    rw [havg]
    rw [if_pos (by
      rw [show |(1 : ℚ)/10 - 1/100| = 9/100 from by
        rw [show ((1 : ℚ)/10 - 1/100) = 9/100 from by norm_num,
          abs_of_nonneg (show (0 : ℚ) ≤ 9/100 from by norm_num)]]
      norm_num)]
    norm_num
  have h := hclaim ⟨1/100, 1, 86400, 5/100, 0, "", [""], []⟩ (fun _ => 0)
      (fun _ => ⟨1, 99/100, 2⟩) (by norm_num) (fun _ => by norm_num)
      (fun i => ⟨by norm_num, by norm_num, by norm_num, by norm_num, by norm_num,
        by norm_num⟩)
  rw [hgen] at h
  have := h (1/100) (by simp)
  norm_num at this

/-- Witness for C4's amended statement: at a concrete target-20 one-sample
configuration with valid draws, the first sample of the returned curve is
at least 0.1 Gbps. -/
theorem generate_ge_tenth_for_large_target_witness :
    1/10 ≤ (generate ⟨20, 1, 86400, 5/100, 0, "", [""], []⟩ (fun _ => 0)
      (fun _ => ⟨1, 99/100, 2⟩)).headD 0 := by
  have hraw : rawSample ⟨20, 1, 86400, 5/100, 0, "", [""], []⟩ (fun _ => 0)
      ⟨1, 99/100, 2⟩ 0 = 437/20 := by
    simp only [rawSample]
    norm_num [max_def]
  have hbase : baseCurve ⟨20, 1, 86400, 5/100, 0, "", [""], []⟩ (fun _ => 0)
      (fun _ => ⟨1, 99/100, 2⟩) = [437/20] := by
    simp only [baseCurve]
    rw [show totalPoints 1 86400 = 1 from by decide,
      show List.range 1 = [0] from rfl, List.map_cons, List.map_nil, hraw]
  have hne : generate ⟨20, 1, 86400, 5/100, 0, "", [""], []⟩ (fun _ => 0)
      (fun _ => ⟨1, 99/100, 2⟩) ≠ [] := by
    unfold generate
    rw [hbase]
    simp only [adjust_to_target]
    split_ifs <;> simp
  exact generate_ge_tenth_for_large_target ⟨20, 1, 86400, 5/100, 0, "", [""], []⟩
    (fun _ => 0) (fun _ => ⟨1, 99/100, 2⟩) (by norm_num) (fun _ => by norm_num)
    (fun i => ⟨by norm_num, by norm_num, by norm_num, by norm_num, by norm_num,
      by norm_num⟩)
    _ (headD_mem hne)

/-- Witness for C9 at a concrete one-region configuration with a valid
draw. -/
theorem distribute_one_entry_per_region_witness :
    (distribute ⟨20, 1, 300, 0, 0, "t", ["d"], [⟨"CN", "beijing", 1⟩]⟩ default 0
      (fun _ => ⟨1, 0⟩)).length =
      ([⟨"CN", "beijing", 1⟩] : List RegionCfg).length :=
  (distribute_one_entry_per_region ⟨20, 1, 300, 0, 0, "t", ["d"], [⟨"CN", "beijing", 1⟩]⟩
    default 0 (fun _ => ⟨1, 0⟩)
    (fun r => ⟨by norm_num, by norm_num, by norm_num⟩)).1

/- Infrastructure for the round-trip analysis (C2). -/

theorem sorted_getD_ge {l : List ℚ} {x : ℚ} {i : ℕ} (hs : List.Sorted (· ≤ ·) l)
    (hi : i < l.length) (hcount : l.countP (fun y => decide (y < x)) ≤ i) :
    x ≤ l.getD i 0 := by
  rw [List.getD_eq_getElem _ _ hi]
  by_contra hcon
  push_neg at hcon
  have hall : ∀ a ∈ l.take (i + 1), (fun y => decide (y < x)) a = true := by
    intro a ha
    rw [List.mem_iff_getElem] at ha
    obtain ⟨j, hj, rfl⟩ := ha
    have hjl : j < l.length := lt_of_lt_of_le hj (by
      rw [List.length_take]
      exact min_le_right _ _)
    rw [List.getElem_take]
    simp only [decide_eq_true_eq]
    have hji : j ≤ i := by
      have := hj
      rw [List.length_take] at this
      omega
    rcases eq_or_lt_of_le hji with h | h
    · subst h
      exact hcon
    · exact lt_of_le_of_lt
        (List.pairwise_iff_get.mp hs ⟨j, hjl⟩ ⟨i, hi⟩ h) hcon
  have h1 : (l.take (i + 1)).countP (fun y => decide (y < x)) = i + 1 := by
    rw [List.countP_eq_length.mpr hall, List.length_take]
    omega
  have h2 := List.Sublist.countP_le (fun y => decide (y < x)) (List.take_sublist (i + 1) l)
  omega

theorem flatten_map_singleton {α β : Type} (l : List α) (g : α → β) :
    (l.map (fun x => [g x])).flatten = l.map g := by
  induction l with
  | nil => rfl
  | cons y ys ih => simp [ih]

theorem maintenanceStep_bw (hour : ℕ) (d : InjectDraw) (m : MetricRecord) :
    (maintenanceStep hour d m).bw = m.bw := by
  unfold maintenanceStep
  split_ifs <;> rfl

theorem outageStep_bw (p : ℚ) (d : InjectDraw) (m : MetricRecord) :
    (outageStep p d m).bw = m.bw := by
  unfold outageStep
  split_ifs <;> rfl

theorem purgeStep_bw (d : InjectDraw) (m : MetricRecord) :
    (purgeStep d m).bw = m.bw := by
  unfold purgeStep
  split_ifs <;> rfl

theorem ddosStep_bw (d : InjectDraw) (m : MetricRecord) :
    (ddosStep d m).bw = m.bw := by
  unfold ddosStep
  split_ifs <;> rfl

/-- `inject` never touches the `bw` field, whatever the draws. -/
theorem inject_bw (p : ℚ) (hour : ℕ) (m : MetricRecord) (d : InjectDraw) :
    (inject p hour m d).bw = m.bw := by
  unfold inject
  rw [ddosStep_bw, purgeStep_bw, outageStep_bw, maintenanceStep_bw]

theorem derive_bw (bandwidth_gbps : ℚ) (interval_seconds : ℕ) (d : DeriveDraw) :
    (derive bandwidth_gbps interval_seconds d).bw = pyInt (bandwidth_gbps * 1024) := rfl

theorem roundtrip_sample_eval (sinT : ℕ → ℚ) (i : ℕ) (hi : i < 288) :
    rawSample roundtripCfg sinT (roundtripCurveDraws i) i =
      max (1/10) (20 * (6/10 + 7/10 * (1/2 + 1/2 * sinT (i * 5 / 60 % 24))) * 1 *
        (115/100) * (roundtripCurveDraws i).noise *
        (if (roundtripCurveDraws i).burstTrial < 1/20 then
          (roundtripCurveDraws i).burstFactor else 1)) := by
  have h0 : i * 5 / 1440 = 0 := Nat.div_eq_of_lt (by omega)
  simp only [rawSample, roundtripCfg]
  simp only [show (300 / 60 : ℕ) = 5 from rfl, h0]
  norm_num

theorem roundtrip_sample_bounds (sinT : ℕ → ℚ) (hs : ∀ h, -1 ≤ sinT h ∧ sinT h ≤ 1)
    (i : ℕ) (hi : i < 288) :
    (i < 24 → 5589/125 ≤ rawSample roundtripCfg sinT (roundtripCurveDraws i) i ∧
      rawSample roundtripCfg sinT (roundtripCurveDraws i) i ≤ 24219/250) ∧
    (24 ≤ i → 1587/125 ≤ rawSample roundtripCfg sinT (roundtripCurveDraws i) i ∧
      rawSample roundtripCfg sinT (roundtripCurveDraws i) i ≤ 6877/250) := by
  obtain ⟨hs1, hs2⟩ := hs (i * 5 / 60 % 24)
  rw [roundtrip_sample_eval sinT i hi]
  constructor
  · intro h24
    rw [show roundtripCurveDraws i = ⟨27/25, 0, 3⟩ from if_pos h24]
    dsimp only
    rw [if_pos (by norm_num : (0 : ℚ) < 1/20)]
    set dv := 6/10 + 7/10 * (1/2 + 1/2 * sinT (i * 5 / 60 % 24)) with hdv
    have hd1 : 6/10 ≤ dv := by rw [hdv]; linarith
    have hd2 : dv ≤ 13/10 := by rw [hdv]; linarith
    have heq : 20 * dv * 1 * (115/100) * (27/25) * 3 = 1863/25 * dv := by ring
    rw [heq]
    constructor
    · exact le_trans (by linarith) (le_max_right _ _)
    · exact max_le (by linarith) (by linarith)
  · intro h24
    rw [show roundtripCurveDraws i = ⟨23/25, 99/100, 2⟩ from if_neg (by omega)]
    dsimp only
    rw [if_neg (by norm_num : ¬((99 : ℚ)/100 < 1/20))]
    set dv := 6/10 + 7/10 * (1/2 + 1/2 * sinT (i * 5 / 60 % 24)) with hdv
    have hd1 : 6/10 ≤ dv := by rw [hdv]; linarith
    have hd2 : dv ≤ 13/10 := by rw [hdv]; linarith
    have heq : 20 * dv * 1 * (115/100) * (23/25) * 1 = 529/25 * dv := by ring
    rw [heq]
    constructor
    · exact le_trans (by linarith) (le_max_right _ _)
    · exact max_le (by linarith) (by linarith)

theorem roundtrip_base_length (sinT : ℕ → ℚ) :
    (baseCurve roundtripCfg sinT roundtripCurveDraws).length = 288 := by
  simp [baseCurve, totalPoints, roundtripCfg]

theorem roundtrip_base_getD (sinT : ℕ → ℚ) (i : ℕ) (hi : i < 288) :
    (baseCurve roundtripCfg sinT roundtripCurveDraws).getD i 0 =
      rawSample roundtripCfg sinT (roundtripCurveDraws i) i := by
  have hlen := roundtrip_base_length sinT
  rw [List.getD_eq_getElem _ _ (by rw [hlen]; exact hi)]
  simp [baseCurve]

theorem roundtrip_base_split (sinT : ℕ → ℚ) :
    baseCurve roundtripCfg sinT roundtripCurveDraws =
      (List.range 24).map (fun i => rawSample roundtripCfg sinT (roundtripCurveDraws i) i) ++
      ((List.range 264).map (fun x => 24 + x)).map
        (fun i => rawSample roundtripCfg sinT (roundtripCurveDraws i) i) := by
  rw [baseCurve,
    show totalPoints roundtripCfg.duration_days roundtripCfg.interval_seconds = 24 + 264
      from by decide,
    List.range_add, List.map_append]

theorem roundtrip_count (sinT : ℕ → ℚ) (hs : ∀ h, -1 ≤ sinT h ∧ sinT h ≤ 1) :
    (baseCurve roundtripCfg sinT roundtripCurveDraws).countP
      (fun y => decide (y < 5589/125)) ≤ 264 := by
  rw [roundtrip_base_split sinT, List.countP_append]
  have h1 : ((List.range 24).map
      (fun i => rawSample roundtripCfg sinT (roundtripCurveDraws i) i)).countP
      (fun y => decide (y < 5589/125)) = 0 := by
    rw [List.countP_eq_zero]
    intro a ha
    rw [List.mem_map] at ha
    obtain ⟨i, hi, rfl⟩ := ha
    rw [List.mem_range] at hi
    have hb := ((roundtrip_sample_bounds sinT hs i (by omega)).1 hi).1
    simp only [decide_eq_true_eq]
    push_neg
    exact hb
  have h2 : (((List.range 264).map (fun x => 24 + x)).map
      (fun i => rawSample roundtripCfg sinT (roundtripCurveDraws i) i)).countP
      (fun y => decide (y < 5589/125)) ≤ 264 := by
    refine le_trans (List.countP_le_length _) ?_
    simp
  omega

theorem roundtrip_sum (sinT : ℕ → ℚ) (hs : ∀ h, -1 ≤ sinT h ∧ sinT h ≤ 1) :
    (baseCurve roundtripCfg sinT roundtripCurveDraws).sum ≤ 2396784/250 := by
  rw [roundtrip_base_split sinT, List.sum_append]
  have h1 : ((List.range 24).map
      (fun i => rawSample roundtripCfg sinT (roundtripCurveDraws i) i)).sum ≤
      (24 : ℕ) • ((24219 : ℚ)/250) := by
    apply List.sum_le_card_nsmul _ _ ?_ |>.trans
    · rw [List.length_map, List.length_range]
    · intro x hx
      rw [List.mem_map] at hx
      obtain ⟨i, hi, rfl⟩ := hx
      rw [List.mem_range] at hi
      exact ((roundtrip_sample_bounds sinT hs i (by omega)).1 hi).2
  have h2 : (((List.range 264).map (fun x => 24 + x)).map
      (fun i => rawSample roundtripCfg sinT (roundtripCurveDraws i) i)).sum ≤
      (264 : ℕ) • ((6877 : ℚ)/250) := by
    apply List.sum_le_card_nsmul _ _ ?_ |>.trans
    · rw [List.length_map, List.length_map, List.length_range]
    · intro x hx
      rw [List.mem_map] at hx
      obtain ⟨i, hi, rfl⟩ := hx
      rw [List.mem_map] at hi
      obtain ⟨j, hj, rfl⟩ := hi
      rw [List.mem_range] at hj
      exact ((roundtrip_sample_bounds sinT hs (24 + j) (by omega)).2 (by omega)).2
  rw [nsmul_eq_mul] at h1 h2
  push_cast at h1 h2
  linarith

theorem roundtrip_daily (sinT : ℕ → ℚ) :
    dailyP95List 288 (baseCurve roundtripCfg sinT roundtripCurveDraws) =
      [calc_daily_p95 (baseCurve roundtripCfg sinT roundtripCurveDraws)] := by
  have hlen := roundtrip_base_length sinT
  simp only [dailyP95List, daySlices, hlen]
  rw [show ((288 + 288 - 1) / 288 : ℕ) = 1 from by decide,
    show List.range 1 = [0] from rfl, List.map_cons, List.map_nil,
    show (0 * 288 : ℕ) = 0 from rfl, List.drop_zero,
    List.take_of_length_le (le_of_eq hlen)]
  rw [List.filter_cons_of_pos (by simp [hlen]), List.filter_nil, List.map_cons,
    List.map_nil]

theorem roundtrip_p95_lb (sinT : ℕ → ℚ) (hs : ∀ h, -1 ≤ sinT h ∧ sinT h ≤ 1) :
    5589/125 ≤ calc_daily_p95 (baseCurve roundtripCfg sinT roundtripCurveDraws) := by
  have hlen := roundtrip_base_length sinT
  unfold calc_daily_p95
  rw [hlen]
  simp only []
  rw [show (calibIdx 288).toNat = 272 from by decide]
  apply sorted_getD_ge (pySorted_sorted _)
  · rw [pySorted_length, hlen]
    norm_num
  · rw [(pySorted_perm _).countP_eq]
    exact le_trans (roundtrip_count sinT hs) (by norm_num)

theorem roundtrip_p95_pos (sinT : ℕ → ℚ) (hs : ∀ h, -1 ≤ sinT h ∧ sinT h ≤ 1) :
    0 < calc_daily_p95 (baseCurve roundtripCfg sinT roundtripCurveDraws) :=
  lt_of_lt_of_le (by norm_num) (roundtrip_p95_lb sinT hs)

theorem roundtrip_generate_eq (sinT : ℕ → ℚ) (hs : ∀ h, -1 ≤ sinT h ∧ sinT h ≤ 1) :
    generate roundtripCfg sinT roundtripCurveDraws =
      (baseCurve roundtripCfg sinT roundtripCurveDraws).map
        (fun bw => bw *
          (20 / calc_daily_p95 (baseCurve roundtripCfg sinT roundtripCurveDraws))) := by
  have hp := roundtrip_p95_lb sinT hs
  unfold generate
  rw [show pointsPerDay roundtripCfg.interval_seconds = 288 from by decide,
    show roundtripCfg.target_gbps = 20 from rfl]
  simp only [adjust_to_target]
  have havg : avgDailyP95 288 (baseCurve roundtripCfg sinT roundtripCurveDraws) =
      calc_daily_p95 (baseCurve roundtripCfg sinT roundtripCurveDraws) := by
    rw [avgDailyP95, roundtrip_daily]
    simp
  rw [havg, if_pos ?hguard]
  case hguard =>
    rw [abs_of_nonneg (by linarith)]
    rw [lt_div_iff₀ (by norm_num : (0 : ℚ) < 20)]
    linarith

theorem roundtrip_distribute_eval (m : MetricRecord) (ts : ℤ) (i : ℕ) :
    distribute roundtripCfg m ts (roundtripDistDraws i) =
      [{ tenantId := "t", start_time := ts, country := "CN", region := "beijing",
         domain := "d", interval := 300, metrics := scaleRecord m (1 * 1) }] := by
  simp [distribute, roundtripCfg, roundtripDistDraws, List.range_succ]

theorem roundtrip_bws_eq (sinT : ℕ → ℚ) (hs : ∀ h, -1 ≤ sinT h ∧ sinT h ≤ 1)
    (derDraws : ℕ → DeriveDraw) (injDraws : ℕ → InjectDraw)
    (startMs : ℤ) (hourOf : ℕ → ℕ) :
    (generate_full_month_logs roundtripCfg sinT roundtripCurveDraws derDraws injDraws
      roundtripDistDraws startMs hourOf).map (fun log => (log.metrics.bw : ℚ) / 1024) =
    (List.range 288).map (fun i =>
      (pyInt (rawSample roundtripCfg sinT (roundtripCurveDraws i) i *
        (20 / calc_daily_p95 (baseCurve roundtripCfg sinT roundtripCurveDraws)) * 1024) : ℚ)
        / 1024) := by
  have hgen := roundtrip_generate_eq sinT hs
  have hclen : (generate roundtripCfg sinT roundtripCurveDraws).length = 288 := by
    rw [hgen, List.length_map, roundtrip_base_length]
  have hgetD : ∀ i, i < 288 →
      (generate roundtripCfg sinT roundtripCurveDraws).getD i 0 =
        rawSample roundtripCfg sinT (roundtripCurveDraws i) i *
          (20 / calc_daily_p95 (baseCurve roundtripCfg sinT roundtripCurveDraws)) := by
    intro i hi
    have hb : i < (baseCurve roundtripCfg sinT roundtripCurveDraws).length := by
      rw [roundtrip_base_length]
      exact hi
    rw [hgen, List.getD_eq_getElem _ _ (by rw [List.length_map]; exact hb),
      List.getElem_map, ← List.getD_eq_getElem _ 0 hb, roundtrip_base_getD sinT i hi]
  simp only [generate_full_month_logs]
  rw [hclen]
  simp only [roundtrip_distribute_eval]
  rw [flatten_map_singleton, List.map_map]
  apply List.map_congr_left
  intro i hi
  rw [List.mem_range] at hi
  simp only [Function.comp, scaleRecord]
  rw [show ((1 : ℚ) * 1) = 1 from by norm_num, mul_one, inject_bw, derive_bw,
    pyInt_intCast, hgetD i hi]

/-- C2: the round-trip property fails on the code.  For the spec's scenario
(target 20 Gbps, one day, 300-second intervals) there are in-range draw
sequences — bursts on the first two hours, none later, jitter 1 — for which
`generate_full_month` followed by `validate_logs(logs, 20)` yields
`passed = false` with `deviation_percent ≥ 5`, whatever the sine table and
whatever the derive/inject draws: calibration drives the *daily p95* to the
target while `validate_logs` checks the *mean* per-log bandwidth against
the same number, and the post-burst rescale puts that mean far below 20. -/
theorem roundtrip_validation_fails (sinT : ℕ → ℚ)
    (hs : ∀ h, -1 ≤ sinT h ∧ sinT h ≤ 1)
    (derDraws : ℕ → DeriveDraw) (injDraws : ℕ → InjectDraw)
    (startMs : ℤ) (hourOf : ℕ → ℕ) :
    (validate_logs (generate_full_month_logs roundtripCfg sinT roundtripCurveDraws
        derDraws injDraws roundtripDistDraws startMs hourOf) 20).passed = false ∧
    5 ≤ (validate_logs (generate_full_month_logs roundtripCfg sinT roundtripCurveDraws
        derDraws injDraws roundtripDistDraws startMs hourOf) 20).deviation_percent := by
  have hplb := roundtrip_p95_lb sinT hs
  have hppos := roundtrip_p95_pos sinT hs
  set c95 := calc_daily_p95 (baseCurve roundtripCfg sinT roundtripCurveDraws) with hc95
  have hscale_pos : (0 : ℚ) < 20 / c95 := div_pos (by norm_num) hppos
  have hbws := roundtrip_bws_eq sinT hs derDraws injDraws startMs hourOf
  rw [← hc95] at hbws
  set fbw : ℕ → ℚ := fun i =>
    (pyInt (rawSample roundtripCfg sinT (roundtripCurveDraws i) i * (20 / c95) * 1024) : ℚ)
      / 1024 with hfbw
  have hptw : ∀ i ∈ List.range 288,
      0 ≤ fbw i ∧ fbw i ≤ rawSample roundtripCfg sinT (roundtripCurveDraws i) i * (20 / c95) := by
    intro i hi
    have hr0 : (0 : ℚ) ≤ rawSample roundtripCfg sinT (roundtripCurveDraws i) i :=
      le_trans (by norm_num) (rawSample_ge_tenth roundtripCfg sinT (roundtripCurveDraws i) i)
    have hq0 : (0 : ℚ) ≤ rawSample roundtripCfg sinT (roundtripCurveDraws i) i *
        (20 / c95) * 1024 :=
      mul_nonneg (mul_nonneg hr0 (le_of_lt hscale_pos)) (by norm_num)
    constructor
    · rw [hfbw]
      exact div_nonneg (by exact_mod_cast pyInt_nonneg hq0) (by norm_num)
    · rw [hfbw, div_le_iff₀ (by norm_num : (0 : ℚ) < 1024)]
      exact pyInt_cast_le hq0
  have hsum1 : ((List.range 288).map fbw).sum ≤
      ((List.range 288).map (fun i =>
        rawSample roundtripCfg sinT (roundtripCurveDraws i) i * (20 / c95))).sum :=
    List.sum_le_sum (fun i hi => (hptw i hi).2)
  have hbase_eq : baseCurve roundtripCfg sinT roundtripCurveDraws =
      (List.range 288).map (fun i => rawSample roundtripCfg sinT (roundtripCurveDraws i) i) := by
    simp only [baseCurve]
    rw [show totalPoints roundtripCfg.duration_days
      roundtripCfg.interval_seconds = 288 from by decide]
  have hsum2 : ((List.range 288).map (fun i =>
      rawSample roundtripCfg sinT (roundtripCurveDraws i) i * (20 / c95))).sum =
      (baseCurve roundtripCfg sinT roundtripCurveDraws).sum * (20 / c95) := by
    rw [List.sum_map_mul_right, hbase_eq]
  have hS := roundtrip_sum sinT hs
  have hscale_ub : 20 / c95 ≤ 2500/5589 := by
    have h := div_le_div_of_nonneg_left (show (0 : ℚ) ≤ 20 from by norm_num)
      (show (0 : ℚ) < 5589/125 from by norm_num) hplb
    rw [show (20 : ℚ) / (5589/125) = 2500/5589 from by norm_num] at h
    exact h
  have htotal : ((List.range 288).map fbw).sum ≤ 23967840/5589 := by
    have h := mul_le_mul hS hscale_ub (le_of_lt hscale_pos)
      (show (0 : ℚ) ≤ 2396784/250 from by norm_num)
    calc ((List.range 288).map fbw).sum ≤ _ := hsum1
    _ = _ := hsum2
    _ ≤ (2396784/250) * (2500/5589) := h
    _ = 23967840/5589 := by norm_num
  have hnn : (0 : ℚ) ≤ ((List.range 288).map fbw).sum :=
    List.sum_nonneg (by
      intro x hx
      rw [List.mem_map] at hx
      obtain ⟨i, hi, rfl⟩ := hx
      exact (hptw i hi).1)
  have hbne : (List.range 288).map fbw ≠ [] := by simp
  have hlen288 : ((List.range 288).map fbw).length = 288 := by simp
  have havg_eq : (statsOf (calculate_p95 ((List.range 288).map fbw))).avg =
      ((List.range 288).map fbw).sum / 288 := by
    simp only [calculate_p95]
    rw [if_neg hbne]
    simp only [statsOf]
    rw [(pySorted_perm _).sum_eq, hlen288]
    norm_num
  have hA_ub : ((List.range 288).map fbw).sum / 288 ≤ 19 := by
    rw [div_le_iff₀ (by norm_num : (0 : ℚ) < 288)]
    linarith
  have hA_nn : (0 : ℚ) ≤ ((List.range 288).map fbw).sum / 288 :=
    div_nonneg hnn (by norm_num)
  have hdev_ge : 5 ≤ |((List.range 288).map fbw).sum / 288 - 20| / 20 * 100 := by
    rw [abs_of_nonpos (by linarith)]
    have h5 : (-(((List.range 288).map fbw).sum / 288 - 20)) / 20 * 100 =
        (20 - ((List.range 288).map fbw).sum / 288) * 5 := by ring
    rw [h5]
    linarith
  simp only [validate_logs]
  rw [hbws, havg_eq]
  constructor
  · exact decide_eq_false (by
      intro hcon
      linarith)
  · exact hdev_ge

/-- Witness for C2's failure theorem at a concrete sine table and concrete
derive/inject draws. -/
theorem roundtrip_validation_fails_witness :
    (validate_logs (generate_full_month_logs roundtripCfg (fun _ => 0)
        roundtripCurveDraws (fun _ => ⟨0, 0, 0, 0, 0, 0, 0, 0, 0⟩)
        (fun _ => ⟨0, 0, 0, 0, 0, 0, 0, 0⟩) roundtripDistDraws 0
        (fun _ => 0)) 20).passed = false :=
  (roundtrip_validation_fails (fun _ => 0) (fun _ => by norm_num)
    (fun _ => ⟨0, 0, 0, 0, 0, 0, 0, 0, 0⟩) (fun _ => ⟨0, 0, 0, 0, 0, 0, 0, 0⟩) 0
    (fun _ => 0)).1
